import Mathlib

/-!
Verification of the `lite` SQLite convenience layer.

The Python sources (`lite/lite.py`, `lite/_tables.py`, `lite/_columns.py`,
`lite/_records.py`) are shallowly embedded below.  The embedded SQLite
engine itself is out of scope of the repository; its catalog-visible
behaviour for exactly the statement shapes the code emits (CREATE TABLE,
DROP TABLE, ALTER TABLE RENAME TO, ALTER TABLE ADD COLUMN,
INSERT INTO ... SELECT, DELETE FROM) is modelled as explicit state
transitions on an abstract catalog state.  Python exceptions that escape
to the caller are modelled with `PyResult`; an `.exc` value means the
corresponding Python call raises.
-/

namespace Lite

/-- Result of a Python call: a normal return value, or an uncaught
exception escaping to the caller. -/
inductive PyResult (α : Type) where
  | ok (a : α)
  | exc (msg : String)
  deriving DecidableEq, Repr

/-- Python `str.lower` (ASCII inputs, as all inputs here are). -/
def pyLower (s : String) : String := ⟨s.data.map Char.toLower⟩

/-- Python `str.upper` (ASCII inputs). -/
def pyUpper (s : String) : String := ⟨s.data.map Char.toUpper⟩

/-- Python `str.strip` on a character list. -/
def pyStripList (l : List Char) : List Char :=
  ((l.dropWhile Char.isWhitespace).reverse.dropWhile Char.isWhitespace).reverse

/-- Python `str.strip`. -/
def pyStrip (s : String) : String := ⟨pyStripList s.data⟩

/-- Python `str.split(sep)` on character lists, fuel-structured so that
it reduces by kernel computation; `fuel` is instantiated with the input
length, which is always enough since every step consumes at least one
character. -/
def pySplitFuel (sep : List Char) : Nat → List Char → List (List Char)
  | 0, s => [s]
  | _ + 1, [] => [[]]
  | fuel + 1, c :: rest =>
    if sep ≠ [] ∧ sep.isPrefixOf (c :: rest) then
      [] :: pySplitFuel sep fuel (rest.drop (sep.length - 1))
    else
      match pySplitFuel sep fuel rest with
      | [] => [[c]]
      | f :: fs => (c :: f) :: fs

/-- Python `s.split(sep)` for a non-empty separator. -/
def pySplit (s sep : String) : List String :=
  (pySplitFuel sep.data s.data.length s.data).map (⟨·⟩)

/-- SQLite values as they matter to the claims. -/
inductive Val where
  | null
  | int (n : Int)
  | text (s : String)
  deriving DecidableEq, Repr

/-- One stored row: the implicit SQLite row identifier plus the column
values in catalog column order. -/
structure Row where
  rowid : Int
  vals : List Val
  deriving DecidableEq, Repr

/-- One catalog table: name, declared columns as (name, type) pairs in
catalog order, and the stored rows. -/
structure Table where
  name : String
  cols : List (String × String)
  rows : List Row
  deriving DecidableEq, Repr

/-- The catalog state of the current database: the list of its tables
in creation order (as `sqlite_master` reports them). -/
abbrev DBState := List Table

/-- `DB.TABLES` (lite.py): the list of table names, read from the catalog. -/
def TABLESf (st : DBState) : List String := st.map (·.name)

/-- Look a table up by name (first match, as a catalog query would). -/
def getTable (st : DBState) (t : String) : Option Table :=
  st.find? (fun tb => tb.name == t)

/-- Engine effect of `ALTER TABLE o RENAME TO n`. -/
def renameEff (st : DBState) (o n : String) : DBState :=
  st.map (fun tb => if tb.name == o then { tb with name := n } else tb)

/-- Engine effect of `DROP TABLE IF EXISTS t`. -/
def dropEff (st : DBState) (t : String) : DBState :=
  st.filter (fun tb => tb.name != t)

/-- `Tables.rename` (_tables.py lines 271-284): fails if `old` is absent
or `new` present, otherwise executes the ALTER TABLE RENAME statement. -/
def tablesRename (st : DBState) (o n : String) : Bool × DBState :=
  if (TABLESf st).contains o && !((TABLESf st).contains n) then
    (true, renameEff st o n)
  else (false, st)

/-- `Tables.drop` (_tables.py lines 261-268): fails if the table is
absent, otherwise executes DROP TABLE IF EXISTS. -/
def tablesDrop (st : DBState) (t : String) : Bool × DBState :=
  if (TABLESf st).contains t then (true, dropEff st t) else (false, st)

/-! ## Records.delete_record (_records.py lines 53-89)

The Python body is

    if table not in self.database.TABLES: return False
    if where:
        where = 'WHERE ' + where.lower().split('where')[1].strip()
    else:
        where = ''
    return self.database.execute(f'''DELETE FROM {table} {where}''')

`where.lower().split('where')[1]` raises `IndexError` whenever the
lowered clause does not contain the substring "where" (Python list
indexing past the end).  The result below is the engine verdict for the
issued statement (the rows effect of DELETE is not needed by any claim)
together with the list of statements actually sent to the engine. -/
def deleteRecord (engine : String → Bool) (st : DBState) (table : String)
    (wh : Option String) : PyResult (Bool × List String) :=
  if !((TABLESf st).contains table) then .ok (false, [])
  else
    let clause? : PyResult String :=
      match wh with
      | none => .ok ""
      | some w =>
        if w == "" then .ok ""  -- Python truthiness: empty string is falsy
        else
          match (pySplit (pyLower w) "where").get? 1 with
          | none => .exc "IndexError: list index out of range"
          | some p => .ok ("WHERE " ++ pyStrip p)
    match clause? with
    | .exc e => .exc e
    | .ok clause =>
      let stmt := "DELETE FROM " ++ table ++ " " ++ clause
      .ok (engine stmt, [stmt])

/-! ## Tables.create (_tables.py lines 25-258)

A field descriptor is a bare name or a (name, type) pair (the source
also truncates longer tuples to their first two entries, which the pair
form covers). -/
inductive Field where
  | bare (name : String)
  | pair (name ftype : String)
  deriving DecidableEq, Repr

/-- Name of a field descriptor. -/
def fieldName : Field → String
  | .bare n => n
  | .pair n _ => n

/-- Names of all supplied field descriptors. -/
def fieldNames (fields : List Field) : List String := fields.map fieldName

/-- Python `f in fields` where `f` is a string and `fields` holds strings
and tuples: a string never equals a tuple, so only bare names match. -/
def pyInFields (f : String) (fields : List Field) : Bool :=
  fields.any (fun fd => match fd with | .bare n => n == f | .pair _ _ => false)

/-- `GENERAL` (lite.py line 11). -/
def GENERAL : List String := ["NULL", "INTEGER", "REAL", "TEXT", "BLOB"]

/-- The `AFFINITY` table values flattened in Python dict order
(lite.py lines 12-29): INTEGER, TEXT, NONE, REAL, NUMERIC groups. -/
def affinityVals : List String :=
  ["INTEGER", "TINYINT", "SMALLINT", "MEDIUMINT", "BIGINT",
   "UNSIGNED BIG INT", "INT2", "INT8",
   "CHARACTER(20)", "VARCHAR(255)", "VARYING CHARACTER(255)",
   "NCHAR(55)", "NATIVE CHARACTER(70)", "NVARCHAR(100)", "TEXT", "CLOB",
   "BLOB", "",
   "REAL", "DOUBLE", "DOUBLE PRECISION", "FLOAT",
   "DECIMAL(10,5)", "BOOLEAN", "DATE", "DATETIME"]

/-- Python `i.split('(')[0]`. -/
def baseOf (s : String) : String := (pySplit s "(").getD 0 ""

/-- `affinity = [i.split('(')[0] for j in AFFINITY.values() for i in j]`
(_tables.py line 156). -/
def affinityBases : List String := affinityVals.map baseOf

/-- Python truthiness of the `pk` argument: `None` and the empty string
are falsy. -/
def pkActive (pk : Option String) : Option String :=
  match pk with
  | none => none
  | some p => if p == "" then none else some p

/-- `pk and field == pk` (_tables.py line 166): truthiness of `pk`
conjoined with string equality. -/
def pkMatch (pk : Option String) (n : String) : Bool :=
  match pkActive pk with
  | some p => n == p
  | none => false

/-- Python dict assignment `columns[k] = v`: update in place if the key
exists, else append (insertion order preserved). -/
def dictSet (d : List (String × String)) (k v : String) :
    List (String × String) :=
  if d.any (fun p => p.1 == k) then
    d.map (fun p => if p.1 == k then (k, v) else p)
  else d ++ [(k, v)]

/-- The field-validation loop of `Tables.create` (_tables.py lines
157-208) building the `columns` dict; `none` models the early
`return False` on an unsupported type.  A bare name gets type TEXT
(`GENERAL[3]`) unless it equals a truthy `pk`, in which case INTEGER
(`GENERAL[1]`); a pair is validated against `GENERAL` and the
base-stripped affinity names. -/
def buildCols (pk : Option String) :
    List Field → List (String × String) → Option (List (String × String))
  | [], acc => some acc
  | .bare n :: rest, acc =>
    buildCols pk rest (dictSet acc n (if pkMatch pk n then "INTEGER" else "TEXT"))
  | .pair n t :: rest, acc =>
    let ft := pyUpper t
    if GENERAL.contains ft || affinityBases.contains ft then
      buildCols pk rest (dictSet acc n ft)
    else none

/-- One line of the generated column list (_tables.py lines 234-236). -/
def colFrag (nullL : List String) (c : String × String) : String :=
  "\n   " ++ c.1 ++ " " ++ c.2 ++
    (if nullL.contains c.1 then " NULL" else " NOT NULL") ++ ","

/-- The code-generation loop over `columns.items()` (_tables.py lines
227-236).  The `if field == pk` branch executes `code += pk_code` where
`code` is an undefined name, i.e. it would raise `NameError`; it is kept
faithfully (it is unreachable because a truthy `pk` was deleted from the
dict beforehand). -/
def renderCols (pk : Option String) (nullL : List String) :
    List (String × String) → PyResult String
  | [] => .ok ""
  | c :: rest =>
    if (match pk with | some p => c.1 == p | none => false) then
      .exc "NameError: name code is not defined"
    else
      match renderCols pk nullL rest with
      | .exc e => .exc e
      | .ok r => .ok (colFrag nullL c ++ r)

/-- Left-to-right concatenation of string fragments, as the Python
`+=` loop accumulates them. -/
def strConcat : List String → String
  | [] => ""
  | s :: rest => s ++ strConcat rest

/-- Python `s[:-1]`: drop the last character. -/
def cut1 (s : String) : String := ⟨s.data.dropLast⟩

/-- `sub` occurs as a contiguous substring of `s`. -/
def strContains (s sub : String) : Bool :=
  s.data.tails.any (fun t => sub.data.isPrefixOf t)

/-- Outcome of `Tables.create` up to the engine call: an early
`return False` (nothing executed), or the generated CREATE TABLE
statement together with the (name, type) column list it declares, in
statement order. -/
inductive CreateRes where
  | failed
  | exec (codes : String) (decls : List (String × String))
  deriving DecidableEq, Repr

/-- The identity-column line added by `if auto and not pk:`
(_tables.py lines 214-215). -/
def autoPartOf (auto : Bool) (pkv : Option String) : String :=
  if auto && pkv.isNone then "\n   id INTEGER NOT NULL PRIMARY KEY," else ""

/-- `del columns[pk]` for a truthy `pk` present in the dict (_tables.py
lines 218-220); a truthy `pk` absent from the dict leaves it unchanged
(only `ptype`/`pk_code` are computed, and `pk_code` is never emitted). -/
def colsAfterDel (cols0 : List (String × String)) (pkv : Option String) :
    List (String × String) :=
  match pkv with
  | some p =>
    if cols0.any (fun c => c.1 == p) then cols0.filter (fun c => c.1 != p)
    else cols0
  | none => cols0

/-- The composite UNIQUE constraint fragment (_tables.py lines 238-243). -/
def uniqPartOf (uniques : List String) : String :=
  if uniques.length > 0 then
    "\n   UNIQUE(" ++ cut1 (strConcat (uniques.map (fun f => f ++ ","))) ++ "),"
  else ""

/-- Final assembly `codes = codes[:-1] + '\n);'` (_tables.py line 244). -/
def codesOf (table autoPart body uniqPart : String) : String :=
  cut1 ("CREATE TABLE " ++ table ++ " (" ++ autoPart ++ body ++ uniqPart)
    ++ "\n);"

/-- The (name, type) column list the generated statement declares, in
statement order. -/
def declsOf (auto : Bool) (pkv : Option String)
    (cols : List (String × String)) : List (String × String) :=
  (if auto && pkv.isNone then [("id", "INTEGER")] else []) ++ cols

/-- `Tables.create` (_tables.py lines 25-246) up to the engine call:
the existing-table check, the uniques/null membership check (iterating
the `specific` dict: `uniques` first, then `null`), field/type
validation, and statement generation.  When `pk` is truthy the source
builds `pk_code` and deletes `pk` from the dict, but never appends
`pk_code` to `codes` (the appending line is dead code guarded by
`field == pk` and would raise NameError), so the primary-key column is
absent from both the statement and `decls`. -/
def createStmt (tabs : List String) (table : String) (fields : List Field)
    (auto : Bool) (nullL : List String) (pk : Option String)
    (uniques : List String) : PyResult CreateRes :=
  if tabs.contains table then .ok .failed
  else if (uniques ++ nullL).any (fun f => !(pyInFields f fields)) then
    .ok .failed
  else
    match buildCols pk fields [] with
    | none => .ok .failed
    | some cols0 =>
      match renderCols pk nullL (colsAfterDel cols0 (pkActive pk)) with
      | .exc e => .exc e
      | .ok body =>
        .ok (.exec
          (codesOf table (autoPartOf auto (pkActive pk)) body
            (uniqPartOf uniques))
          (declsOf auto (pkActive pk) (colsAfterDel cols0 (pkActive pk))))

/-- A list of strings has no duplicates (executable). -/
def nodupB : List String → Bool
  | [] => true
  | x :: xs => !(xs.contains x) && nodupB xs

/-- Engine effect of executing the generated CREATE TABLE statement:
fails (OperationalError, caught and converted to False) if the table
exists, the statement declares no column (the source then emits
malformed SQL), or a column name is duplicated; otherwise the table is
added to the catalog with no rows. -/
def applyCreateDecls (st : DBState) (table : String)
    (decls : List (String × String)) : Bool × DBState :=
  if (TABLESf st).contains table || decls.isEmpty
      || !(nodupB (decls.map Prod.fst)) then
    (false, st)
  else (true, st ++ [⟨table, decls, []⟩])

/-- `Tables.create` end to end: statement generation followed by the
engine call.  Returns the Python result, the catalog state afterwards,
and the list of statements executed. -/
def create (st : DBState) (table : String) (fields : List Field)
    (auto : Bool) (nullL : List String) (pk : Option String)
    (uniques : List String) : PyResult (Bool × DBState × List String) :=
  match createStmt (TABLESf st) table fields auto nullL pk uniques with
  | .exc e => .exc e
  | .ok .failed => .ok (false, st, [])
  | .ok (.exec codes decls) =>
    let (res, st') := applyCreateDecls st table decls
    .ok (res, st', [codes])

/-! ## Columns.fields, Records.insert, Columns.add, Columns.remove -/

/-- `Columns.fields` (_columns.py lines 95-129): the column names of a
table from the catalog, in catalog order; `none` models the `(None,)`
failure marker returned for an absent table. -/
def fieldsF (st : DBState) (table : String) : Option (List String) :=
  (getTable st table).map (fun tb => tb.cols.map Prod.fst)

/-- First index of a name in a column-name list. -/
def idxOf (c : String) : List String → Option Nat
  | [] => none
  | x :: xs => if x == c then some 0 else (idxOf c xs).map (· + 1)

/-- The value a SELECT of column `c` yields for row `r` of table `tb`. -/
def colValIn (tb : Table) (r : Row) (c : String) : Val :=
  match idxOf c (tb.cols.map Prod.fst) with
  | some i => r.vals.getD i Val.null
  | none => Val.null

/-- The padding loop of `Records.insert` (_records.py lines 39-40):
`while len(record) < fields: record.append(empty)`.  Structured on a
fuel argument (instantiated with the target length, which bounds the
number of iterations) so it reduces by computation. -/
def padWhileF : Nat → List Val → Nat → Val → List Val
  | 0, record, _, _ => record
  | fuel + 1, record, n, e =>
    if record.length < n then padWhileF fuel (record ++ [e]) n e else record

/-- The padding loop with enough fuel. -/
def padWhile (record : List Val) (n : Nat) (e : Val) : List Val :=
  padWhileF n record n e

/-- `Records.insert` (_records.py lines 15-50).  `record` is the very
list object supplied by the caller and `record.append(empty)` mutates
it in place; the second component of the result is therefore the
content of the caller's list after the call.  The engine accepts the
INSERT iff the padded record matches the column count (more values than
columns is an OperationalError).  The row stored on success is not part
of any claim and is not modelled. -/
def insert (st : DBState) (table : String) (record : List Val)
    (empty : Val) : Bool × List Val :=
  if !((TABLESf st).contains table) then (false, record)
  else
    let n := match fieldsF st table with
      | some l => l.length
      | none => 1  -- len((None,)) = 1; unreachable here: the table exists
    let record' := padWhile record n empty
    (record'.length == n, record')

/-- The column count of an existing table. -/
def colCount (st : DBState) (table : String) : Nat :=
  ((fieldsF st table).getD []).length

/-- `Columns.add` (_columns.py lines 17-55): fails if the table is
absent or the column already present; otherwise executes
`ALTER TABLE t ADD COLUMN "c" TYPE [NOT] NULL [UNIQUE];`.  SQLite
rejects ADD COLUMN with a UNIQUE constraint, and rejects a NOT NULL
column without a non-null default (documented engine behaviour), so the
engine accepts the statement iff `nullb && !uniq`; on success the
column is appended to the catalog and every stored row is extended with
NULL. -/
def addColumn (st : DBState) (table column : String) (uniq nullb : Bool)
    (ftype : String) : Bool × DBState :=
  if !((TABLESf st).contains table)
      || ((fieldsF st table).getD []).contains column then (false, st)
  else if !nullb || uniq then (false, st)
  else
    (true,
     st.map (fun tb =>
       if tb.name == table then
         { tb with
             cols := tb.cols ++ [(column, ftype)],
             rows := tb.rows.map (fun r => ⟨r.rowid, r.vals ++ [Val.null]⟩) }
       else tb))

/-- `Columns.remove` (_columns.py lines 58-92): project the remaining
columns, drop the table, recreate it via `Tables.create` with its
default arguments (`auto=True`, every remaining column passed as a bare
name), then re-insert the projected records.  The re-insertion line is
`self.records.insert(...)` and `Columns` has no attribute `records`, so
the first loop iteration raises AttributeError. -/
def removeColumn (st : DBState) (table column : String) :
    PyResult (Bool × DBState) :=
  if !((TABLESf st).contains table) then .ok (false, st)
  else
    match getTable st table with
    | none => .ok (false, st)  -- unreachable here: the table exists
    | some tb =>
      let fields := tb.cols.map Prod.fst
      if !(fields.contains column) then .ok (false, st)
      else
        let fields' := fields.erase column
        if fields'.isEmpty then .ok (true, (tablesDrop st table).2)
        else
          let records := tb.rows.map (fun r => fields'.map (colValIn tb r))
          let st1 := (tablesDrop st table).2
          match create st1 table (fields'.map Field.bare) true [] none [] with
          | .exc e => .exc e
          | .ok (_, st2, _) =>  -- the result of create is ignored by the source
            if records.isEmpty then .ok (true, st2)
            else .exc "AttributeError: Columns object has no attribute records"

/-! ## Columns.primary_key (_columns.py lines 132-233) -/

/-- The non-promoted columns of the rebuild (_columns.py lines
172-177): `rowid = column if column in columns else 'ROWID'`, then
`if rowid != 'ROWID': del columns[column]`.  The dict deletion happens
only when `rowid` differs from the literal string ROWID, i.e. when the
promoted column exists among the fields AND is not itself named ROWID;
a pre-existing column named ROWID is kept in the dict (and later
duplicated in the CREATE statement).  Catalog column names are unique,
so the dict deletion is a filter. -/
def pkOthers (tb : Table) (column : String) : List (String × String) :=
  if (tb.cols.map Prod.fst).contains column && column != "ROWID" then
    tb.cols.filter (fun c => c.1 != column)
  else tb.cols

/-- Value source for the promoted column of one old row:
`rowid = column if column in columns else 'ROWID'` (_columns.py line
172), projected by the `INSERT INTO ... SELECT {rowid}, ...` statement
(line 224): the existing column value when `column` is among the
fields, the implicit row identifier otherwise. -/
def pkSrc (tb : Table) (column : String) (r : Row) : Val :=
  if (tb.cols.map Prod.fst).contains column then colValIn tb r column
  else Val.int r.rowid

/-- Engine effect of `INSERT INTO table SELECT ... FROM old_table`:
append the selected rows to `table`. -/
def insertEff (st : DBState) (table : String) (newRows : List Row) : DBState :=
  st.map (fun tb =>
    if tb.name == table then { tb with rows := tb.rows ++ newRows } else tb)

/-- The values stored in the first (primary-key) column of a table. -/
def pkColumnVals (st : DBState) (table : String) : Option (List Val) :=
  (getTable st table).map (fun tb => tb.rows.map (fun r => r.vals.headD Val.null))

/-- `Columns.primary_key` (_columns.py lines 132-233).  Step order as in
the source: table-existence check via `fields`; choice of the value
source; rename of the original table to `old_{table}` (result ignored);
two `PRAGMA foreign_keys=off` statements (accepted, no catalog effect);
CREATE of the new table with the promoted column first; the copying
INSERT ... SELECT; on copy success DROP of `old_{table}`, on copy
failure the rollback of lines 226-229 (drop the new table, rename the
temporary back).  The CREATE fails at the engine when a table named
`table` still exists, when there are no other columns — then the
generated SQL keeps a trailing comma, because `code[:-1]` removes a
whitespace character of the triple-quoted literal instead of the comma
— or when it would declare a duplicate column name, the case of
promoting a pre-existing column named ROWID, which `pkOthers` keeps in
the dict.  The copy statement is
`INSERT INTO {table} SELECT {rowid}, {columns} FROM old_{table};` with
`columns = f"{columns[0]}, " + ', '.join(columns[1:])` (line 220): with
exactly one non-promoted column the join of the empty tail leaves a
dangling comma before FROM and the engine deterministically rejects the
statement, so the copy can succeed only when at least two non-promoted
columns remain; `copyOk` injects the engine verdict for the remaining
data-dependent outcomes (an IntegrityError or OperationalError there is
caught by the local `check` helper and reported as failure).  Row
identifiers of the rebuilt table are engine-assigned; no claim depends
on them.  The `columns[0]` expression after a successful CREATE cannot
raise because CREATE succeeded only if other columns exist. -/
def primaryKey (copyOk : Bool) (st : DBState) (table column ftype : String) :
    PyResult (Bool × DBState) :=
  match getTable st table with
  | none => .ok (false, st)  -- fields(table) returned the (None,) marker
  | some tb =>
    let others := pkOthers tb column
    let st1 := (tablesRename st table ("old_" ++ table)).2
    if (TABLESf st1).contains table || others.isEmpty
        || !(nodupB (column :: others.map Prod.fst)) then
      .ok (false, st1)
    else
      let st2 := st1 ++ [⟨table, (column, ftype) :: others, []⟩]
      if !(copyOk && others.length != 1) then
        let st3 := (tablesDrop st2 table).2
        let st4 := (tablesRename st3 ("old_" ++ table) table).2
        .ok (false, st4)
      else
        let newRows := tb.rows.map (fun r =>
          (⟨r.rowid, pkSrc tb column r
              :: others.map (fun c => colValIn tb r c.1)⟩ : Row))
        let st3 := insertEff st2 table newRows
        let st4 := (tablesDrop st3 ("old_" ++ table)).2
        .ok (true, st4)

/-- A two-column table used by the concrete primary-key witnesses. -/
def pkDemoTable : Table :=
  ⟨"t", [("a", "INTEGER"), ("b", "TEXT")],
   [⟨1, [Val.int 5, Val.text "x"]⟩, ⟨2, [Val.int 9, Val.text "y"]⟩]⟩

/-- A one-table database used by the concrete primary-key witnesses. -/
def pkDemoDB : DBState := [pkDemoTable]

/-- A three-column table for the successful-rebuild witness: with two
non-promoted columns the copy statement has no dangling comma and can
succeed. -/
def pkDemoTable3 : Table :=
  ⟨"t", [("a", "INTEGER"), ("b", "TEXT"), ("c", "TEXT")],
   [⟨1, [Val.int 5, Val.text "x", Val.text "u"]⟩,
    ⟨2, [Val.int 9, Val.text "y", Val.text "v"]⟩]⟩

/-- A one-table database holding `pkDemoTable3`. -/
def pkDemoDB3 : DBState := [pkDemoTable3]

/-- A one-table database used for the concrete evaluations below. -/
def employerDB : DBState :=
  [⟨"employer", [("id", "INTEGER"), ("age", "INTEGER")],
    [⟨1, [Val.int 1, Val.int 70]⟩, ⟨2, [Val.int 2, Val.int 30]⟩]⟩]

/-- Claim C1: the spec states that every failure of the public interface
is signalled by a failure return value and that no call raises an
exception to the caller.  The code contradicts this (and the docstring
of `delete_record`, which allows omitting the WHERE keyword): on an
existing table, `delete_record("employer", "id = 3")` raises
`IndexError`, because the lowered clause contains no "where" substring,
so its split has a single element and the code indexes element 1. -/
theorem delete_record_raises_to_caller :
    deleteRecord (fun _ => true) employerDB "employer" (some "id = 3")
      = .exc "IndexError: list index out of range" := by
  decide

/-- Claim C2: the spec states `delete(table, w)` and
`delete(table, "WHERE " ++ w)` issue the same DELETE statement.  On the
code, with `w = "age > 65"`, the form without the keyword raises
`IndexError` while the form with the keyword executes
`DELETE FROM employer WHERE age > 65`, so the two are not equivalent. -/
theorem delete_where_forms_not_equivalent :
    deleteRecord (fun _ => true) employerDB "employer" (some "age > 65")
      = .exc "IndexError: list index out of range" ∧
    deleteRecord (fun _ => true) employerDB "employer" (some "WHERE age > 65")
      = .ok (true, ["DELETE FROM employer WHERE age > 65"]) := by
  constructor
  · decide
  · decide

/-- Claim C3: the spec states that with a non-None `pk` the generated
CREATE TABLE statement contains the primary-key column, placed first.
Evaluating the code at `create("t", ["a", "b"], pk="a")`: the generated
statement is `CREATE TABLE t (\n   b TEXT NOT NULL\n);` — the
primary-key column `a` does not occur in it at all (the source builds
`pk_code` but the line appending it is dead code). -/
theorem create_pk_column_missing_from_statement :
    createStmt [] "t" [.bare "a", .bare "b"] true [] (some "a") []
      = .ok (.exec "CREATE TABLE t (\n   b TEXT NOT NULL\n);" [("b", "TEXT")])
    ∧ strContains "CREATE TABLE t (\n   b TEXT NOT NULL\n);" "a" = false := by
  constructor
  · decide
  · decide

/-- Auxiliary: if the Python membership test `f in fields` succeeds for
a string `f`, then `f` is the name of a bare field, hence a supplied
field name. -/
theorem pyInFields_imp_mem_fieldNames (f : String) (fields : List Field)
    (h : pyInFields f fields = true) : f ∈ fieldNames fields := by
  induction fields with
  | nil => simp [pyInFields] at h
  | cons fd rest ih =>
    simp only [pyInFields, List.any_cons, Bool.or_eq_true] at h
    rcases h with h | h
    · cases fd with
      | bare n =>
        simp only [beq_iff_eq] at h
        simp [fieldNames, fieldName, h]
      | pair n t => simp at h
    · have := ih h
      simp [fieldNames] at this ⊢
      exact Or.inr this

/-- Claim C7: if some name in `uniques` or in `null` does not name any
supplied field, `Tables.create` returns failure without executing any
statement and without touching the catalog. -/
theorem create_undefined_constraint_name_fails (st : DBState)
    (table : String) (fields : List Field) (auto : Bool)
    (nullL : List String) (pk : Option String) (uniques : List String)
    (f : String) (hf : f ∈ uniques ++ nullL)
    (hn : f ∉ fieldNames fields) :
    create st table fields auto nullL pk uniques = .ok (false, st, []) := by
  have hpy : pyInFields f fields = false := by
    cases h : pyInFields f fields
    · rfl
    · exact absurd (pyInFields_imp_mem_fieldNames f fields h) hn
  have hany : ((uniques ++ nullL).any (fun g => !(pyInFields g fields))) = true := by
    rw [List.any_eq_true]
    exact ⟨f, hf, by rw [hpy]; rfl⟩
  by_cases hc : table ∈ TABLESf st
  · simp [create, createStmt, hc]
  · simp [create, createStmt, hc, hany]

/-- Witness for the C7 theorem at a concrete input: `uniques = ["zip"]`
with `zip` not among the supplied fields. -/
theorem create_undefined_constraint_name_fails_witness :
    ("zip" ∈ (["zip"] ++ ([] : List String))
      ∧ "zip" ∉ fieldNames [.bare "a", .pair "b" "INTEGER"])
    ∧ create [] "t" [.bare "a", .pair "b" "INTEGER"] true [] none ["zip"]
        = .ok (false, [], []) :=
  ⟨⟨by decide, by decide⟩,
   create_undefined_constraint_name_fails [] "t"
     [.bare "a", .pair "b" "INTEGER"] true [] none ["zip"] "zip"
     (by decide) (by decide)⟩

/-- Claim C8: `Tables.create` on a table name already in `TABLES`
returns failure without executing any statement, leaving the catalog
(hence the existing table, its columns and rows) unchanged. -/
theorem create_existing_table_fails_without_executing (st : DBState)
    (table : String) (fields : List Field) (auto : Bool)
    (nullL : List String) (pk : Option String) (uniques : List String)
    (h : (TABLESf st).contains table = true) :
    create st table fields auto nullL pk uniques = .ok (false, st, []) := by
  have h' : table ∈ TABLESf st := by simpa using h
  simp [create, createStmt, h']

/-- Witness for the C8 theorem at a concrete input: creating `employer`
again on `employerDB`. -/
theorem create_existing_table_fails_without_executing_witness :
    (TABLESf employerDB).contains "employer" = true
    ∧ create employerDB "employer" [.bare "x"] true [] none []
        = .ok (false, employerDB, []) :=
  ⟨by decide,
   create_existing_table_fails_without_executing employerDB "employer"
     [.bare "x"] true [] none [] (by decide)⟩

/-- String append acts as list append on the character data. -/
theorem strData_append (a b : String) : (a ++ b).data = a.data ++ b.data := by
  cases a
  cases b
  rfl

/-- The temporary name `old_{table}` never equals `table`. -/
theorem old_ne (t : String) : ("old_" ++ t) ≠ t := by
  intro h
  have hd : ("old_" ++ t).data = t.data := congrArg String.data h
  rw [strData_append] at hd
  have hlen := congrArg List.length hd
  rw [List.length_append] at hlen
  have h4 : ("old_" : String).data.length = 4 := rfl
  omega

/-- The table names after a rename are the pointwise-renamed names. -/
theorem TABLESf_renameEff (st : DBState) (o n : String) :
    TABLESf (renameEff st o n)
      = (TABLESf st).map (fun s => if s == o then n else s) := by
  induction st with
  | nil => rfl
  | cons x rest ih =>
    simp only [renameEff, TABLESf, List.map_cons] at ih ⊢
    by_cases hx : x.name == o
    · simp only [if_pos hx, ih]
    · simp only [if_neg hx, ih]

/-- After renaming every table named `t` to a different name `o`, no
table is named `t` any more. -/
theorem not_mem_renamed (st : DBState) (t o : String) (hot : o ≠ t) :
    t ∉ TABLESf (renameEff st t o) := by
  rw [TABLESf_renameEff]
  intro hm
  obtain ⟨s, _, hs⟩ := List.mem_map.mp hm
  by_cases h : s == t
  · rw [if_pos h] at hs
    exact hot hs
  · rw [if_neg h] at hs
    exact absurd hs (by simpa using h)

/-- Renaming `t` to a fresh name `o` and back restores the catalog. -/
theorem renameEff_cancel (st : DBState) (t o : String)
    (h : o ∉ TABLESf st) :
    renameEff (renameEff st t o) o t = st := by
  induction st with
  | nil => rfl
  | cons x rest ih =>
    simp only [TABLESf, List.map_cons, List.mem_cons, not_or] at h
    obtain ⟨hx, hr⟩ := h
    have ihr := ih (by simpa [TABLESf] using hr)
    simp only [renameEff, List.map_cons] at ihr ⊢
    by_cases hxt : x.name == t
    · have hxe : x.name = t := by simpa using hxt
      rw [if_pos hxt]
      have hno : (({ x with name := o } : Table).name == o) = true := by simp
      rw [if_pos hno, ihr]
      cases x
      simp only at hxe
      simp [hxe]
    · rw [if_neg hxt]
      have hno : (x.name == o) = false := by
        simp only [beq_eq_false_iff_ne, ne_eq]
        exact fun he => hx (he ▸ rfl)
      rw [if_neg (by simp [hno]), ihr]

/-- A name-conditional map over a catalog containing no table of that
name does nothing. -/
theorem map_if_name_eq_self (st1 : DBState) (table : String)
    (f : Table → Table) (h : table ∉ TABLESf st1) :
    st1.map (fun tb => if tb.name == table then f tb else tb) = st1 := by
  induction st1 with
  | nil => rfl
  | cons x rest ih =>
    simp only [TABLESf, List.map_cons, List.mem_cons, not_or] at h
    obtain ⟨hx, hr⟩ := h
    have hxe : (x.name == table) = false := by
      simp only [beq_eq_false_iff_ne, ne_eq]
      exact fun he => hx (he ▸ rfl)
    rw [List.map_cons, if_neg (by simp [hxe]),
      ih (by simpa [TABLESf] using hr)]

/-- `find?` skips a prefix on which it finds nothing. -/
theorem find?_append_none {p : Table → Bool} (A B : List Table)
    (h : A.find? p = none) : (A ++ B).find? p = B.find? p := by
  induction A with
  | nil => simp
  | cons x rest ih =>
    rw [List.cons_append]
    cases hx : p x
    · rw [List.find?_cons_of_neg _ (by simp [hx])]
      rw [List.find?_cons_of_neg _ (by simp [hx])] at h
      exact ih h
    · rw [List.find?_cons_of_pos _ hx] at h
      exact absurd h (by simp)

/-- Claim C4: the spec states that adding a column and removing it again
restores the original column set (names and types) and row contents.
Evaluating the code: on a table `t` with single column `a INTEGER` and
one row, `add("t", "c", null=True)` succeeds, and the subsequent
`remove("t", "c")` raises AttributeError (the re-insertion uses
`self.records`, which `Columns` does not have) — and before that crash
it has already recreated `t` with columns `id INTEGER, a TEXT` instead
of the original `a INTEGER`, because the recreation calls
`Tables.create` with its defaults. -/
theorem add_remove_roundtrip_breaks :
    addColumn [⟨"t", [("a", "INTEGER")], [⟨1, [Val.int 7]⟩]⟩]
        "t" "c" false true "TEXT"
      = (true, [⟨"t", [("a", "INTEGER"), ("c", "TEXT")],
                 [⟨1, [Val.int 7, Val.null]⟩]⟩])
    ∧ removeColumn [⟨"t", [("a", "INTEGER"), ("c", "TEXT")],
                     [⟨1, [Val.int 7, Val.null]⟩]⟩] "t" "c"
      = .exc "AttributeError: Columns object has no attribute records" := by
  constructor
  · decide
  · decide

/-- Claim C5: when the row-copy step of `primary_key` fails, the
operation drops the partially created new table, renames the temporary
`old_{table}` back to `table`, and reports failure: the final catalog
state is exactly the pre-operation state (same table, columns and
rows).  Hypotheses: the table exists, no table named `old_{table}` is
in the way, the rebuild has at least one non-promoted column, and the
new table's column names are not duplicated (so the CREATE succeeds and
the copy step is actually reached). -/
theorem primary_key_copy_failure_rolls_back (st : DBState) (tb : Table)
    (table column ftype : String)
    (h1 : getTable st table = some tb)
    (h2 : ("old_" ++ table) ∉ TABLESf st)
    (h3 : pkOthers tb column ≠ [])
    (h4 : nodupB (column :: (pkOthers tb column).map Prod.fst) = true) :
    primaryKey false st table column ftype = .ok (false, st) := by
  have hfind : st.find? (fun x => x.name == table) = some tb := by
    simpa [getTable] using h1
  have hname : tb.name = table := by simpa using List.find?_some hfind
  have hmem : table ∈ TABLESf st :=
    List.mem_map.mpr ⟨tb, List.mem_of_find?_eq_some hfind, hname⟩
  have hOT : ("old_" ++ table) ≠ table := old_ne table
  have hren : tablesRename st table ("old_" ++ table)
      = (true, renameEff st table ("old_" ++ table)) := by
    simp [tablesRename, hmem, h2]
  have hnt : table ∉ TABLESf (renameEff st table ("old_" ++ table)) :=
    not_mem_renamed st table ("old_" ++ table) hOT
  have hcont1 :
      (TABLESf (renameEff st table ("old_" ++ table))).contains table = false := by
    simpa using hnt
  have hie : (pkOthers tb column).isEmpty = false := by
    cases hh : (pkOthers tb column).isEmpty
    · rfl
    · exact absurd (by simpa using hh) h3
  have hdrop1 : dropEff (renameEff st table ("old_" ++ table)) table
      = renameEff st table ("old_" ++ table) := by
    apply List.filter_eq_self.mpr
    intro x hxm
    have hxn : x.name ≠ table := fun he =>
      hnt (List.mem_map.mpr ⟨x, hxm, he⟩)
    simpa using hxn
  have hdrop2 : (tablesDrop (renameEff st table ("old_" ++ table)
      ++ [⟨table, (column, ftype) :: pkOthers tb column, []⟩]) table).2
      = renameEff st table ("old_" ++ table) := by
    have hconta : (TABLESf (renameEff st table ("old_" ++ table)
        ++ [⟨table, (column, ftype) :: pkOthers tb column, []⟩])).contains table
        = true := by
      simp [TABLESf]
    simp only [tablesDrop, hconta, if_true]
    rw [dropEff, List.filter_append]
    rw [show (renameEff st table ("old_" ++ table)).filter
        (fun tb2 => tb2.name != table)
        = dropEff (renameEff st table ("old_" ++ table)) table from rfl]
    rw [hdrop1]
    simp
  have hOin : ("old_" ++ table)
      ∈ TABLESf (renameEff st table ("old_" ++ table)) := by
    rw [TABLESf_renameEff]
    exact List.mem_map.mpr ⟨table, hmem, by simp⟩
  have hren2 : tablesRename (renameEff st table ("old_" ++ table))
      ("old_" ++ table) table = (true, st) := by
    have hc1 : (TABLESf (renameEff st table ("old_" ++ table))).contains
        ("old_" ++ table) = true := by simpa using hOin
    simp only [tablesRename, hc1, hcont1, Bool.not_false, Bool.and_self,
      if_true]
    rw [renameEff_cancel st table ("old_" ++ table) h2]
  have hnd4 : (!(nodupB (column :: (pkOthers tb column).map Prod.fst)))
      = false := by rw [h4]; rfl
  have hguard : (!(false && ((pkOthers tb column).length != 1))) = true := rfl
  simp only [primaryKey, h1, hren, hcont1, hie, hnd4, hguard, Bool.or_self,
    Bool.or_false, Bool.false_or, Bool.false_eq_true, if_false,
    Bool.not_false, if_true, hdrop2, hren2]

/-- Witness for the C5 theorem at a concrete input: a two-column table,
promoting the existing column `a`, with the copy step failing. -/
theorem primary_key_copy_failure_rolls_back_witness :
    (getTable pkDemoDB "t" = some pkDemoTable
      ∧ ("old_" ++ "t") ∉ TABLESf pkDemoDB
      ∧ pkOthers pkDemoTable "a" ≠ []
      ∧ nodupB ("a" :: (pkOthers pkDemoTable "a").map Prod.fst) = true)
    ∧ primaryKey false pkDemoDB "t" "a" "INTEGER" = .ok (false, pkDemoDB) :=
  ⟨⟨by decide, by decide, by decide, by decide⟩,
   primary_key_copy_failure_rolls_back pkDemoDB pkDemoTable "t" "a" "INTEGER"
     (by decide) (by decide) (by decide) (by decide)⟩

/-- Claim C6: on a successful rebuild, `primary_key` fills the new
primary-key column from the promoted column's existing values when
`column` is among the table's fields, and from the implicit row
identifier (ROWID) otherwise — `pkSrc` is, by definition, exactly this
case split — and in the first case the pre-existing values are
preserved in the primary-key column after promotion. -/
theorem primary_key_fills_pk_from_source (st : DBState) (tb : Table)
    (table column ftype : String)
    (h1 : getTable st table = some tb)
    (h2 : ("old_" ++ table) ∉ TABLESf st)
    (h3 : pkOthers tb column ≠ [])
    (h4 : nodupB (column :: (pkOthers tb column).map Prod.fst) = true)
    (h5 : (pkOthers tb column).length ≠ 1) :
    ∃ st', primaryKey true st table column ftype = .ok (true, st')
      ∧ pkColumnVals st' table = some (tb.rows.map (pkSrc tb column))
      ∧ ((tb.cols.map Prod.fst).contains column = true →
          pkColumnVals st' table
            = some (tb.rows.map (fun r => colValIn tb r column))) := by
  have hfind : st.find? (fun x => x.name == table) = some tb := by
    simpa [getTable] using h1
  have hname : tb.name = table := by simpa using List.find?_some hfind
  have hmem : table ∈ TABLESf st :=
    List.mem_map.mpr ⟨tb, List.mem_of_find?_eq_some hfind, hname⟩
  have hOT : ("old_" ++ table) ≠ table := old_ne table
  have hren : tablesRename st table ("old_" ++ table)
      = (true, renameEff st table ("old_" ++ table)) := by
    simp [tablesRename, hmem, h2]
  have hnt : table ∉ TABLESf (renameEff st table ("old_" ++ table)) :=
    not_mem_renamed st table ("old_" ++ table) hOT
  have hcont1 :
      (TABLESf (renameEff st table ("old_" ++ table))).contains table
        = false := by
    simpa using hnt
  have hie : (pkOthers tb column).isEmpty = false := by
    cases hh : (pkOthers tb column).isEmpty
    · rfl
    · exact absurd (by simpa using hh) h3
  have hOin : ("old_" ++ table)
      ∈ TABLESf (renameEff st table ("old_" ++ table)) := by
    rw [TABLESf_renameEff]
    exact List.mem_map.mpr ⟨table, hmem, by simp⟩
  have hins : insertEff (renameEff st table ("old_" ++ table)
        ++ [⟨table, (column, ftype) :: pkOthers tb column, []⟩]) table
        (tb.rows.map (fun r =>
          (⟨r.rowid, pkSrc tb column r
            :: (pkOthers tb column).map (fun c => colValIn tb r c.1)⟩ : Row)))
      = renameEff st table ("old_" ++ table)
        ++ [⟨table, (column, ftype) :: pkOthers tb column,
             tb.rows.map (fun r =>
               (⟨r.rowid, pkSrc tb column r
                 :: (pkOthers tb column).map
                      (fun c => colValIn tb r c.1)⟩ : Row))⟩] := by
    rw [insertEff, List.map_append,
      map_if_name_eq_self _ table _ hnt]
    simp
  have hnone : ((renameEff st table ("old_" ++ table)).filter
        (fun x => x.name != ("old_" ++ table))).find?
        (fun x => x.name == table) = none := by
    apply List.find?_eq_none.mpr
    intro x hxm
    have hx1 : x ∈ renameEff st table ("old_" ++ table) :=
      List.mem_of_mem_filter hxm
    have : x.name ≠ table := fun he =>
      hnt (List.mem_map.mpr ⟨x, hx1, he⟩)
    simpa using this
  have htd : (tablesDrop (renameEff st table ("old_" ++ table)
        ++ [⟨table, (column, ftype) :: pkOthers tb column,
             tb.rows.map (fun r =>
               (⟨r.rowid, pkSrc tb column r
                 :: (pkOthers tb column).map
                      (fun c => colValIn tb r c.1)⟩ : Row))⟩])
        ("old_" ++ table)).2
      = (renameEff st table ("old_" ++ table)).filter
          (fun x => x.name != ("old_" ++ table))
        ++ [⟨table, (column, ftype) :: pkOthers tb column,
             tb.rows.map (fun r =>
               (⟨r.rowid, pkSrc tb column r
                 :: (pkOthers tb column).map
                      (fun c => colValIn tb r c.1)⟩ : Row))⟩] := by
    have hcO : (TABLESf (renameEff st table ("old_" ++ table)
        ++ [⟨table, (column, ftype) :: pkOthers tb column,
             tb.rows.map (fun r =>
               (⟨r.rowid, pkSrc tb column r
                 :: (pkOthers tb column).map
                      (fun c => colValIn tb r c.1)⟩ : Row))⟩])).contains
          ("old_" ++ table) = true := by
      have hm2 : ("old_" ++ table) ∈ TABLESf (renameEff st table ("old_" ++ table)
          ++ [⟨table, (column, ftype) :: pkOthers tb column,
               tb.rows.map (fun r =>
                 (⟨r.rowid, pkSrc tb column r
                   :: (pkOthers tb column).map
                        (fun c => colValIn tb r c.1)⟩ : Row))⟩]) := by
        rw [TABLESf, List.map_append]
        exact List.mem_append.mpr (Or.inl hOin)
      simpa using hm2
    simp only [tablesDrop, hcO, if_true, dropEff, List.filter_append]
    congr 1
    rw [List.filter_cons]
    have : ((⟨table, (column, ftype) :: pkOthers tb column,
        tb.rows.map (fun r =>
          (⟨r.rowid, pkSrc tb column r
            :: (pkOthers tb column).map
                 (fun c => colValIn tb r c.1)⟩ : Row))⟩ : Table).name
        != ("old_" ++ table)) = true := by
      simp only [bne_iff_ne, ne_eq]
      exact fun he => hOT he.symm
    rw [if_pos this]
    rfl
  have hget : getTable ((renameEff st table ("old_" ++ table)).filter
        (fun x => x.name != ("old_" ++ table))
        ++ [⟨table, (column, ftype) :: pkOthers tb column,
             tb.rows.map (fun r =>
               (⟨r.rowid, pkSrc tb column r
                 :: (pkOthers tb column).map
                      (fun c => colValIn tb r c.1)⟩ : Row))⟩]) table
      = some ⟨table, (column, ftype) :: pkOthers tb column,
             tb.rows.map (fun r =>
               (⟨r.rowid, pkSrc tb column r
                 :: (pkOthers tb column).map
                      (fun c => colValIn tb r c.1)⟩ : Row))⟩ := by
    rw [getTable, find?_append_none _ _ hnone]
    simp
  refine ⟨(renameEff st table ("old_" ++ table)).filter
      (fun x => x.name != ("old_" ++ table))
      ++ [⟨table, (column, ftype) :: pkOthers tb column,
           tb.rows.map (fun r =>
             (⟨r.rowid, pkSrc tb column r
               :: (pkOthers tb column).map
                    (fun c => colValIn tb r c.1)⟩ : Row))⟩], ?_, ?_, ?_⟩
  · have hnd4 : (!(nodupB (column :: (pkOthers tb column).map Prod.fst)))
        = false := by rw [h4]; rfl
    have hlen : ((pkOthers tb column).length != 1) = true := by
      simpa using h5
    have hguard : (!(true && ((pkOthers tb column).length != 1)))
        = false := by rw [hlen]; rfl
    simp only [primaryKey, h1, hren, hcont1, hie, hnd4, hguard,
      Bool.or_self, Bool.or_false, Bool.false_or, Bool.false_eq_true,
      if_false, Bool.not_true, hins, htd]
  · rw [pkColumnVals, hget]
    simp [List.map_map]
  · intro h
    rw [pkColumnVals, hget]
    simp only [List.map_map, Option.map, Function.comp, List.headD_cons]
    simp only [pkSrc, h, if_true]
    rfl

/-- Witness for the C6 theorem at a concrete input: promoting the
existing column `a` of a three-column, two-row table (two non-promoted
columns remain, so the copy statement is well formed); the primary-key
column of the rebuilt table holds the original values of `a`. -/
theorem primary_key_fills_pk_from_source_witness :
    (getTable pkDemoDB3 "t" = some pkDemoTable3
      ∧ ("old_" ++ "t") ∉ TABLESf pkDemoDB3
      ∧ pkOthers pkDemoTable3 "a" ≠ []
      ∧ nodupB ("a" :: (pkOthers pkDemoTable3 "a").map Prod.fst) = true
      ∧ (pkOthers pkDemoTable3 "a").length ≠ 1)
    ∧ ∃ st', primaryKey true pkDemoDB3 "t" "a" "INTEGER" = .ok (true, st')
      ∧ pkColumnVals st' "t"
          = some (pkDemoTable3.rows.map (pkSrc pkDemoTable3 "a"))
      ∧ ((pkDemoTable3.cols.map Prod.fst).contains "a" = true →
          pkColumnVals st' "t"
            = some (pkDemoTable3.rows.map
                (fun r => colValIn pkDemoTable3 r "a"))) :=
  ⟨⟨by decide, by decide, by decide, by decide, by decide⟩,
   primary_key_fills_pk_from_source pkDemoDB3 pkDemoTable3 "t" "a" "INTEGER"
     (by decide) (by decide) (by decide) (by decide) (by decide)⟩

/-- With fuel at least `n - record.length`, the padding loop appends
exactly `n - record.length` filler values. -/
theorem padWhileF_eq (e : Val) :
    ∀ (fuel : Nat) (record : List Val) (n : Nat),
      n - record.length ≤ fuel →
      padWhileF fuel record n e = record ++ List.replicate (n - record.length) e := by
  intro fuel
  induction fuel with
  | zero =>
    intro record n h
    have : n - record.length = 0 := Nat.le_zero.mp h
    simp [padWhileF, this]
  | succ fuel ih =>
    intro record n h
    by_cases hlt : record.length < n
    · have hstep : n - (record ++ [e]).length ≤ fuel := by
        simp only [List.length_append, List.length_cons, List.length_nil]
        omega
      rw [padWhileF, if_pos hlt, ih (record ++ [e]) n hstep, List.append_assoc]
      congr 1
      simp only [List.length_append, List.length_cons, List.length_nil]
      rw [show n - record.length = (n - (record.length + 1)) + 1 from by omega]
      simp [List.replicate_succ]
    · have : n - record.length = 0 := by omega
      simp [padWhileF, if_neg hlt, this]

/-- Claim C10: on an existing table, when the supplied record is shorter
than the column count, `Records.insert` appends the filler value to the
caller's own list until its length equals the column count; the second
component of `insert` is the caller's list after the call. -/
theorem insert_pads_callers_record (st : DBState) (table : String)
    (record : List Val) (empty : Val)
    (h1 : (TABLESf st).contains table = true)
    (h2 : record.length < colCount st table) :
    (insert st table record empty).2
        = record ++ List.replicate (colCount st table - record.length) empty
    ∧ (insert st table record empty).2.length = colCount st table := by
  have hsome : ∃ tb2, getTable st table = some tb2 := by
    have hm : table ∈ TABLESf st := by simpa using h1
    obtain ⟨tb, htb, hname⟩ := List.mem_map.mp hm
    cases hg : getTable st table with
    | some tb2 => exact ⟨tb2, rfl⟩
    | none =>
      exfalso
      rw [getTable] at hg
      have := List.find?_eq_none.mp hg tb htb
      simp [hname] at this
  obtain ⟨tb, htb⟩ := hsome
  have hf : fieldsF st table = some (tb.cols.map Prod.fst) := by
    simp [fieldsF, htb]
  have hn : colCount st table = (tb.cols.map Prod.fst).length := by
    simp [colCount, hf]
  have hpad : padWhile record (colCount st table) empty
      = record ++ List.replicate (colCount st table - record.length) empty :=
    padWhileF_eq empty (colCount st table) record (colCount st table)
      (Nat.sub_le _ _)
  constructor
  · simp only [insert, h1, Bool.not_true, Bool.false_eq_true, if_false, hf]
    rw [← hn, hpad]
  · simp only [insert, h1, Bool.not_true, Bool.false_eq_true, if_false, hf]
    rw [← hn, hpad]
    simp only [List.length_append, List.length_replicate]
    omega

/-- Witness for the C10 theorem at a concrete input: a one-value record
inserted into the two-column `employer` table. -/
theorem insert_pads_callers_record_witness :
    ((TABLESf employerDB).contains "employer" = true
      ∧ [Val.text "Ann"].length < colCount employerDB "employer")
    ∧ ((insert employerDB "employer" [Val.text "Ann"] Val.null).2
        = [Val.text "Ann"]
          ++ List.replicate (colCount employerDB "employer"
               - [Val.text "Ann"].length) Val.null
      ∧ (insert employerDB "employer" [Val.text "Ann"] Val.null).2.length
          = colCount employerDB "employer") :=
  ⟨⟨by decide, by decide⟩,
   insert_pads_callers_record employerDB "employer" [Val.text "Ann"] Val.null
     (by decide) (by decide)⟩

/-- Claim C9 (as stated) is refuted at two inputs.  With
`create("t", ["a", "b"], pk="a")` the field `a` is supplied as a bare
name, yet the generated statement does not declare `a` with TEXT — it
does not declare `a` at all (the bare pk is typed INTEGER in the dict
and then dropped with the dict deletion).  With
`create("t2", ["a", ("a", "INTEGER")])` the bare name `a` is
overwritten by the later pair, so `a` is declared INTEGER, not TEXT. -/
theorem create_bare_field_not_always_text :
    (createStmt [] "t" [.bare "a", .bare "b"] true [] (some "a") []
        = .ok (.exec "CREATE TABLE t (\n   b TEXT NOT NULL\n);" [("b", "TEXT")])
      ∧ strContains "CREATE TABLE t (\n   b TEXT NOT NULL\n);" "a TEXT" = false)
    ∧ (createStmt [] "t2" [.bare "a", .pair "a" "INTEGER"] true [] none []
        = .ok (.exec
            "CREATE TABLE t2 (\n   id INTEGER NOT NULL PRIMARY KEY,\n   a INTEGER NOT NULL\n);"
            [("id", "INTEGER"), ("a", "INTEGER")])
      ∧ strContains
          "CREATE TABLE t2 (\n   id INTEGER NOT NULL PRIMARY KEY,\n   a INTEGER NOT NULL\n);"
          "a TEXT" = false) := by
  refine ⟨⟨?_, ?_⟩, ?_, ?_⟩
  · decide
  · decide
  · decide
  · decide

/-- Keys of the dict after an assignment: the old keys plus the
assigned key. -/
theorem dictSet_keys (acc : List (String × String)) (k v x : String)
    (hx : x ∈ (dictSet acc k v).map Prod.fst) :
    x ∈ acc.map Prod.fst ∨ x = k := by
  rw [dictSet] at hx
  split at hx
  · rw [List.map_map] at hx
    obtain ⟨p, hp, he⟩ := List.mem_map.mp hx
    simp only [Function.comp] at he
    by_cases hpk : (p.1 == k) = true
    · rw [if_pos hpk] at he
      right
      simpa using he.symm
    · rw [if_neg hpk] at he
      left
      exact List.mem_map.mpr ⟨p, hp, he⟩
  · rw [List.map_append] at hx
    rcases List.mem_append.mp hx with h | h
    · left; exact h
    · right; simpa using h

/-- A dict assignment to a different key preserves an entry. -/
theorem dictSet_mem_of_ne (acc : List (String × String)) (k v f w : String)
    (hne : f ≠ k) (hm : (f, w) ∈ acc) : (f, w) ∈ dictSet acc k v := by
  rw [dictSet]
  split
  · refine List.mem_map.mpr ⟨(f, w), hm, ?_⟩
    rw [if_neg (by simpa using hne)]
  · exact List.mem_append.mpr (Or.inl hm)

/-- Assigning a fresh key appends the entry. -/
theorem dictSet_mem_fresh (acc : List (String × String)) (f w : String)
    (hkey : f ∉ acc.map Prod.fst) : (f, w) ∈ dictSet acc f w := by
  rw [dictSet]
  have hany : (acc.any (fun p => p.1 == f)) = false := by
    rw [List.any_eq_false]
    intro p hp
    simp only [beq_iff_eq]
    exact fun he => hkey (List.mem_map.mpr ⟨p, hp, he⟩)
  rw [if_neg (by simp [hany])]
  exact List.mem_append.mpr (Or.inr (by simp))

/-- A key absent before an assignment to a different key is still
absent afterwards. -/
theorem dictSet_key_not_mem (acc : List (String × String)) (k v f : String)
    (hne : f ≠ k) (hkey : f ∉ acc.map Prod.fst) :
    f ∉ (dictSet acc k v).map Prod.fst := by
  intro hmem
  rcases dictSet_keys acc k v f hmem with h | h
  · exact hkey h
  · exact hne h

/-- Once `(f, TEXT)` is in the dict and no later field is named `f`,
the final dict still holds `(f, TEXT)`. -/
theorem buildCols_preserve (pk : Option String) (f : String) :
    ∀ (fields : List Field) (acc d : List (String × String)),
      buildCols pk fields acc = some d →
      (f, "TEXT") ∈ acc →
      f ∉ fieldNames fields →
      (f, "TEXT") ∈ d := by
  intro fields
  induction fields with
  | nil =>
    intro acc d h hm _
    rw [buildCols] at h
    exact (Option.some.inj h) ▸ hm
  | cons fd rest ih =>
    intro acc d h hm hnin
    have hsplit : fieldName fd ≠ f ∧ f ∉ fieldNames rest := by
      rw [fieldNames, List.map_cons] at hnin
      exact ⟨fun he => hnin (by simp [he]), fun hmm => hnin (by simp [fieldNames] at hmm ⊢; exact Or.inr hmm)⟩
    cases fd with
    | bare n =>
      rw [buildCols] at h
      exact ih _ _ h
        (dictSet_mem_of_ne acc n _ f "TEXT" (fun he => hsplit.1 he.symm) hm)
        hsplit.2
    | pair n t =>
      rw [buildCols] at h
      split at h
      · exact ih _ _ h
          (dictSet_mem_of_ne acc n _ f "TEXT" (fun he => hsplit.1 he.symm) hm)
          hsplit.2
      · exact absurd h (by simp)

/-- A bare field `f` distinct from the pk and from every other supplied
field name ends up in the dict with type TEXT. -/
theorem buildCols_bare_text (pk : Option String) (f : String)
    (hpkm : pkMatch pk f = false) :
    ∀ (fields : List Field) (acc d : List (String × String)),
      buildCols pk fields acc = some d →
      Field.bare f ∈ fields →
      (fieldNames fields).Nodup →
      f ∉ acc.map Prod.fst →
      (f, "TEXT") ∈ d := by
  intro fields
  induction fields with
  | nil =>
    intro acc d _ hmem _ _
    cases hmem
  | cons fd rest ih =>
    intro acc d h hmem hnd hkey
    have hnd' : (fieldNames rest).Nodup ∧ fieldName fd ∉ fieldNames rest := by
      rw [fieldNames, List.map_cons, List.nodup_cons] at hnd
      exact ⟨hnd.2, hnd.1⟩
    rcases List.mem_cons.mp hmem with he | hmem'
    · -- the head is the bare field f itself
      rw [← he] at h
      rw [buildCols, hpkm] at h
      have hin : (f, "TEXT") ∈ dictSet acc f "TEXT" :=
        dictSet_mem_fresh acc f "TEXT" hkey
      have hnin : f ∉ fieldNames rest := by
        have : fieldName (Field.bare f) = f := rfl
        rw [← he] at hnd'
        exact this ▸ hnd'.2
      exact buildCols_preserve pk f rest _ d (by simpa using h) hin hnin
    · -- f occurs in the tail; the head has a different name
      have hne : fieldName fd ≠ f := by
        have hf : f ∈ fieldNames rest :=
          List.mem_map.mpr ⟨.bare f, hmem', rfl⟩
        exact fun he2 => hnd'.2 (he2 ▸ hf)
      cases fd with
      | bare n =>
        rw [buildCols] at h
        exact ih _ _ h hmem' hnd'.1
          (dictSet_key_not_mem acc n _ f (fun he2 => hne he2.symm) hkey)
      | pair n t =>
        rw [buildCols] at h
        split at h
        · exact ih _ _ h hmem' hnd'.1
            (dictSet_key_not_mem acc n _ f (fun he2 => hne he2.symm) hkey)
        · exact absurd h (by simp)

/-- A successful rendering is the concatenation of the column lines. -/
theorem renderCols_ok_eq (pk : Option String) (nullL : List String) :
    ∀ (l : List (String × String)) (b : String),
      renderCols pk nullL l = .ok b →
      b = strConcat (l.map (colFrag nullL)) := by
  intro l
  induction l with
  | nil =>
    intro b h
    have h0 : renderCols pk nullL ([] : List (String × String)) = .ok "" := rfl
    rw [h0] at h
    simpa [strConcat] using (PyResult.ok.inj h).symm
  | cons c rest ih =>
    intro b h
    have h0 : renderCols pk nullL (c :: rest)
        = if (match pk with | some p => c.1 == p | none => false) then
            .exc "NameError: name code is not defined"
          else
            match renderCols pk nullL rest with
            | .exc e => .exc e
            | .ok r => .ok (colFrag nullL c ++ r) := rfl
    rw [h0] at h
    split at h
    · exact absurd h (by simp)
    · cases hr : renderCols pk nullL rest with
      | exc e =>
        rw [hr] at h
        exact absurd h (by simp)
      | ok r =>
        rw [hr] at h
        have hb : colFrag nullL c ++ r = b := PyResult.ok.inj h
        rw [← hb, ih r hr]
        rfl

/-- A member of the fragment list appears contiguously in the
concatenation. -/
theorem strConcat_data_decomp (g : String × String → String)
    (x : String × String) :
    ∀ (l : List (String × String)), x ∈ l →
      ∃ A B, (strConcat (l.map g)).data = A ++ (g x).data ++ B := by
  intro l
  induction l with
  | nil => intro h; cases h
  | cons y rest ih =>
    intro h
    rcases List.mem_cons.mp h with he | hm
    · refine ⟨[], (strConcat (rest.map g)).data, ?_⟩
      rw [List.map_cons]
      rw [show strConcat (g y :: rest.map g) = g y ++ strConcat (rest.map g)
        from rfl]
      rw [strData_append, he, List.nil_append]
    · obtain ⟨A, B, hAB⟩ := ih hm
      refine ⟨(g y).data ++ A, B, ?_⟩
      rw [List.map_cons]
      rw [show strConcat (g y :: rest.map g) = g y ++ strConcat (rest.map g)
        from rfl]
      rw [strData_append, hAB]
      simp [List.append_assoc]

/-- A decomposition of the character data certifies the substring
test. -/
theorem strContains_of_decomp (s sub : String) (A B : List Char)
    (h : s.data = A ++ sub.data ++ B) : strContains s sub = true := by
  rw [strContains, List.any_eq_true]
  refine ⟨sub.data ++ B, ?_, ?_⟩
  · rw [h, List.mem_tails, List.append_assoc]
    exact List.suffix_append A (sub.data ++ B)
  · rw [List.isPrefixOf_iff_prefix]
    exact List.prefix_append _ _

/-- Claim C9, amended: every field supplied as a bare name whose name
differs from the (truthy) pk and from every other supplied field name
is declared with the general text type TEXT in the generated CREATE
TABLE statement, whenever a statement is generated. -/
theorem create_bare_field_declared_text (tabs : List String)
    (table : String) (fields : List Field) (auto : Bool)
    (nullL : List String) (pk : Option String) (uniques : List String)
    (f codes : String) (decls : List (String × String))
    (hmem : Field.bare f ∈ fields)
    (hnd : (fieldNames fields).Nodup)
    (hpk : pkActive pk ≠ some f)
    (hsucc : createStmt tabs table fields auto nullL pk uniques
      = .ok (.exec codes decls)) :
    strContains codes ("\n   " ++ f ++ " TEXT") = true := by
  -- dissect the successful run of createStmt
  rw [createStmt] at hsucc
  by_cases h1 : tabs.contains table = true
  · rw [if_pos h1] at hsucc
    exact absurd hsucc (by simp)
  rw [if_neg h1] at hsucc
  by_cases h2 : ((uniques ++ nullL).any fun g => !pyInFields g fields) = true
  · rw [if_pos h2] at hsucc
    exact absurd hsucc (by simp)
  rw [if_neg h2] at hsucc
  split at hsucc
  case neg.h_1 => exact absurd hsucc (by simp)
  case neg.h_2 cols0 hbc =>
  split at hsucc
  case h_1 => exact absurd hsucc (by simp)
  case h_2 body hrc =>
  obtain ⟨hcodes', _⟩ := CreateRes.exec.inj (PyResult.ok.inj hsucc)
  have hcodes : codes
      = codesOf table (autoPartOf auto (pkActive pk)) body
          (uniqPartOf uniques) := hcodes'.symm
  -- the bare field survives into the rendered column list
  have hpkm : pkMatch pk f = false := by
    rw [pkMatch]
    cases hpkv : pkActive pk with
    | none => rfl
    | some p =>
      simp only [beq_eq_false_iff_ne, ne_eq]
      exact fun he => hpk (by rw [hpkv, he])
  have hmem0 : (f, "TEXT") ∈ cols0 :=
    buildCols_bare_text pk f hpkm fields [] cols0 hbc hmem hnd (by simp)
  have hmemc : (f, "TEXT") ∈ colsAfterDel cols0 (pkActive pk) := by
    cases hpkv : pkActive pk with
    | none =>
      rw [show colsAfterDel cols0 none = cols0 from rfl]
      exact hmem0
    | some p =>
      have hpf : f ≠ p := fun he => hpk (by rw [hpkv, he])
      rw [show colsAfterDel cols0 (some p)
          = (if cols0.any (fun c => c.1 == p) then
              cols0.filter (fun c => c.1 != p)
            else cols0) from rfl]
      split
      · exact List.mem_filter.mpr ⟨hmem0, by simpa using hpf⟩
      · exact hmem0
  -- decompose the statement around the TEXT declaration of f
  have hbody := renderCols_ok_eq pk nullL _ body hrc
  obtain ⟨A, B, hAB⟩ :=
    strConcat_data_decomp (colFrag nullL) (f, "TEXT") _ hmemc
  have hsp : ((" " : String) ++ "TEXT").data = (" TEXT" : String).data := rfl
  have hfrag : (colFrag nullL (f, "TEXT")).data
      = ("\n   " ++ f ++ " TEXT").data
        ++ (((if nullL.contains f then " NULL" else " NOT NULL") : String)
             ++ ",").data := by
    simp only [colFrag, strData_append, ← hsp, List.append_assoc]
    rfl
  have htail : (((if nullL.contains f then " NULL" else " NOT NULL") : String)
      ++ ",").data ≠ [] := by
    rw [strData_append]
    intro hnil
    rw [List.append_eq_nil] at hnil
    have : ("," : String).data = [','] := rfl
    rw [this] at hnil
    exact absurd hnil.2 (by simp)
  have hassemble :
      (("CREATE TABLE " ++ table ++ " (" ++ autoPartOf auto (pkActive pk)
          ++ body ++ uniqPartOf uniques)).data
      = (("CREATE TABLE " ++ table ++ " ("
            ++ autoPartOf auto (pkActive pk)).data ++ A)
        ++ ("\n   " ++ f ++ " TEXT").data
        ++ ((((if nullL.contains f then " NULL" else " NOT NULL") : String)
              ++ ",").data ++ B ++ (uniqPartOf uniques).data) := by
    rw [strData_append, strData_append, hbody, hAB, hfrag]
    simp [List.append_assoc]
  have hTne : ((((if nullL.contains f then " NULL" else " NOT NULL") : String)
      ++ ",").data ++ B ++ (uniqPartOf uniques).data) ≠ [] := by
    intro hnil
    rw [List.append_eq_nil, List.append_eq_nil] at hnil
    exact htail hnil.1.1
  have hfinal :
      (codesOf table (autoPartOf auto (pkActive pk)) body
        (uniqPartOf uniques)).data
      = (("CREATE TABLE " ++ table ++ " ("
            ++ autoPartOf auto (pkActive pk)).data ++ A)
        ++ ("\n   " ++ f ++ " TEXT").data
        ++ (((((if nullL.contains f then " NULL" else " NOT NULL") : String)
              ++ ",").data ++ B ++ (uniqPartOf uniques).data).dropLast
            ++ ("\n);" : String).data) := by
    rw [codesOf, strData_append]
    rw [show (cut1 ("CREATE TABLE " ++ table ++ " ("
        ++ autoPartOf auto (pkActive pk) ++ body ++ uniqPartOf uniques)).data
        = ("CREATE TABLE " ++ table ++ " (" ++ autoPartOf auto (pkActive pk)
            ++ body ++ uniqPartOf uniques).data.dropLast from rfl]
    rw [hassemble]
    rw [List.dropLast_append_of_ne_nil _ hTne]
    simp [List.append_assoc]
  rw [hcodes]
  exact strContains_of_decomp _ _ _ _ hfinal

/-- Witness for the amended C9 theorem at a concrete input: the bare
field `x` of `create("t3", ["x", ("y", "INTEGER")])` is declared
`x TEXT` in the generated statement. -/
theorem create_bare_field_declared_text_witness :
    (Field.bare "x" ∈ [Field.bare "x", Field.pair "y" "INTEGER"]
      ∧ (fieldNames [Field.bare "x", Field.pair "y" "INTEGER"]).Nodup
      ∧ pkActive none ≠ some "x"
      ∧ createStmt [] "t3" [Field.bare "x", Field.pair "y" "INTEGER"]
          true [] none []
        = .ok (.exec
            "CREATE TABLE t3 (\n   id INTEGER NOT NULL PRIMARY KEY,\n   x TEXT NOT NULL,\n   y INTEGER NOT NULL\n);"
            [("id", "INTEGER"), ("x", "TEXT"), ("y", "INTEGER")]))
    ∧ strContains
        "CREATE TABLE t3 (\n   id INTEGER NOT NULL PRIMARY KEY,\n   x TEXT NOT NULL,\n   y INTEGER NOT NULL\n);"
        ("\n   " ++ "x" ++ " TEXT") = true :=
  ⟨⟨by decide, by decide, by decide, by decide⟩,
   create_bare_field_declared_text [] "t3"
     [Field.bare "x", Field.pair "y" "INTEGER"] true [] none [] "x"
     "CREATE TABLE t3 (\n   id INTEGER NOT NULL PRIMARY KEY,\n   x TEXT NOT NULL,\n   y INTEGER NOT NULL\n);"
     [("id", "INTEGER"), ("x", "TEXT"), ("y", "INTEGER")]
     (by decide) (by decide) (by decide) (by decide)⟩

end Lite
